import Mathlib

/-!
# Verification of the VSingerXrossPlayer navigation/grouping core

Shallow embedding of the navigation core of the repository:

* the data model (`Singer`, `Song`, `Category`, items as a tagged union);
* the generic cyclic-rotation primitive `rotateToIndex`
  (`src/App.tsx` variants, identical copies);
* the `NavigationController` move / clamp / lookup operations
  (`src/d3/NavigationController.ts`);
* the `useXMBNavigation` hook's move operations
  (`src/hooks/useXMBNavigation.ts`);
* the pivot routine `handlePivot` (`src/App.tsx`, rotation-aware variant);
* the two grouping builders of `useData` (`src/hooks/useData.ts`).

JavaScript numbers are embedded as `Int`; the JS `%` operator is `Int.tmod`
(truncated remainder, the JS semantics).  JS array indexing `a[i]`, which
yields `undefined` out of bounds, is embedded as `Option`-returning access
(`jsGet?`).  A JS statement that would throw (member access on `undefined`)
is embedded as `Except.error`.  All functions are pure state transformers,
mirroring the source, which never mutates its input arrays.
-/

/-! ## Embedded definitions (data model, navigation, pivot, grouping) -/

/-- A singer record (`Singer` in `src/types/index.ts`); kept fields are the
ones the navigation core reads. -/
structure Singer where
  id : String
  name : String
  avatar_url : String
  deriving Repr, DecidableEq

/-- A cover performance (`Song` in `src/types/index.ts`); kept fields are the
ones the navigation core reads.  `singer_name` / `singer_avatar` are the
display-enrichment fields added by the grouping builders. -/
structure Song where
  id : String
  title : String
  video_url : String
  singer_id : String
  singer_name : Option String := none
  singer_avatar : Option String := none
  deriving Repr, DecidableEq

/-- A category item is either a full performance record or a bare singer
record (the TS union `Singer | Song`, discriminated in the source by
structural field presence: a `Song` has `title` and `singer_id`, a `Singer`
has neither). -/
inductive Item where
  | song (s : Song)
  | singer (s : Singer)
  deriving Repr, DecidableEq

/-- A category (`Category` in `src/types/index.ts`): a keyed, ordered bucket
of items. -/
structure Category where
  id : String
  title : String
  avatar_url : Option String := none
  items : List Item
  type : String := "songs"
  deriving Repr, DecidableEq

/-- Which grouping is active (`type AxisMode = "songs" | "singers"`). -/
inductive AxisMode where
  | songs
  | singers
  deriving Repr, DecidableEq

instance : Inhabited Item := ⟨Item.singer ⟨"", "", ""⟩⟩

instance : Inhabited Category := ⟨{ id := "", title := "", items := [] }⟩

/-- JS array read `a[i]`: `undefined` (here `none`) whenever the index is
negative or past the end. -/
def jsGet? {α : Type _} (l : List α) (i : Int) : Option α :=
  if 0 ≤ i then l.get? i.toNat else none

/-- JS `Array.prototype.findIndex`: index of the first match, `-1` if none. -/
def jsFindIndex {α : Type _} (l : List α) (p : α → Bool) : Int :=
  match l.findIdx? p with
  | some i => (i : Int)
  | none => -1

/-- Embedding of `rotateToIndex` from `src/App.tsx`: produce a new array, a cyclic
rotation of `items` placing the element at `fromIndex` at position
`toIndex mod length`; the empty array is returned unchanged. -/
def rotateToIndex {α : Type _} [Inhabited α] (items : List α)
    (fromIndex toIndex : Int) : List α :=
  let length : Int := items.length
  if items.length = 0 then items
  else
    let normalizedTo := ((toIndex.tmod length) + length).tmod length
    let offset := (normalizedTo - fromIndex + length).tmod length
    (List.range items.length).map (fun (i : Nat) =>
      let srcIndex := (((i : Int) - offset + length).tmod length).toNat
      items.getD srcIndex default)

/-- Embedding of `NavigationState` from `src/d3/NavigationController.ts`. -/
structure NavigationState where
  cursorX : Int
  cursorY : Int
  deriving Repr, DecidableEq

namespace NavigationController

/-- Controller `moveLeft`: wrap `cursorX` by `-1` cyclically, then re-derive `cursorY`
against the target category (`itemsLength > 0 ? min(cursorY, itemsLength-1) : 0`). -/
def moveLeft (categories : List Category) (s : NavigationState) :
    NavigationState :=
  if categories.length = 0 then s
  else
    let len : Int := categories.length
    let newX := (s.cursorX - 1 + len).tmod len
    let itemsLength : Int :=
      match jsGet? categories newX with
      | some c => c.items.length
      | none => 0
    let newY := if 0 < itemsLength then min s.cursorY (itemsLength - 1) else 0
    ⟨newX, newY⟩

/-- Controller `moveRight`: wrap `cursorX` by `+1` cyclically, then re-derive `cursorY`. -/
def moveRight (categories : List Category) (s : NavigationState) :
    NavigationState :=
  if categories.length = 0 then s
  else
    let len : Int := categories.length
    let newX := (s.cursorX + 1).tmod len
    let itemsLength : Int :=
      match jsGet? categories newX with
      | some c => c.items.length
      | none => 0
    let newY := if 0 < itemsLength then min s.cursorY (itemsLength - 1) else 0
    ⟨newX, newY⟩

/-- Controller `moveUp`: wrap `cursorY` by `-1` within the current category; no-op when
the category is missing or empty. -/
def moveUp (categories : List Category) (s : NavigationState) :
    NavigationState :=
  match jsGet? categories s.cursorX with
  | none => s
  | some c =>
    if c.items.length = 0 then s
    else ⟨s.cursorX, (s.cursorY - 1 + (c.items.length : Int)).tmod c.items.length⟩

/-- Controller `moveDown`: wrap `cursorY` by `+1` within the current category; no-op when
the category is missing or empty. -/
def moveDown (categories : List Category) (s : NavigationState) :
    NavigationState :=
  match jsGet? categories s.cursorX with
  | none => s
  | some c =>
    if c.items.length = 0 then s
    else ⟨s.cursorX, (s.cursorY + 1).tmod c.items.length⟩

/-- Controller `updateCategories`: replace the categories and clamp the cursor to the
new shape (reset to `(0,0)` when the new array is empty). -/
def updateCategories (categories : List Category) (s : NavigationState) :
    NavigationState :=
  if 0 < categories.length then
    let len : Int := categories.length
    let x1 := max 0 (min s.cursorX (len - 1))
    let y1 :=
      match jsGet? categories x1 with
      | some c =>
        if 0 < c.items.length then
          max 0 (min s.cursorY ((c.items.length : Int) - 1))
        else 0
      | none => 0
    ⟨x1, y1⟩
  else ⟨0, 0⟩

/-- Controller `getCurrentItem`: `null` (here `none`) when either coordinate is out of
bounds, otherwise `categories[cursorX].items[cursorY]`. -/
def getCurrentItem (categories : List Category) (s : NavigationState) :
    Option Item :=
  if s.cursorX < 0 ∨ (categories.length : Int) ≤ s.cursorX then none
  else
    match jsGet? categories s.cursorX with
    | none => none
    | some category =>
      if s.cursorY < 0 ∨ (category.items.length : Int) ≤ s.cursorY then none
      else jsGet? category.items s.cursorY

end NavigationController

/-- Embedding of `XMBNavigationState` from `src/hooks/useXMBNavigation.ts`. -/
structure XMBNavigationState where
  x : Int
  y : Int
  deriving Repr, DecidableEq

namespace useXMBNavigation

/-- Hook `moveLeft`: `x' = max(0, x - 1)`, `y' = 0` (reset on category change). -/
def moveLeft (s : XMBNavigationState) : XMBNavigationState :=
  ⟨max 0 (s.x - 1), 0⟩

/-- Hook `moveRight`: `x' = min(length - 1, x + 1)`, `y' = 0`. -/
def moveRight (categories : List Category) (s : XMBNavigationState) :
    XMBNavigationState :=
  ⟨min ((categories.length : Int) - 1) (s.x + 1), 0⟩

/-- Hook `moveUp`: `y' = max(0, y - 1)`. -/
def moveUp (s : XMBNavigationState) : XMBNavigationState :=
  ⟨s.x, max 0 (s.y - 1)⟩

/-- Hook `moveDown`: no-op when the category is missing, otherwise
`y' = min(items.length - 1, y + 1)` (note: no emptiness guard). -/
def moveDown (categories : List Category) (s : XMBNavigationState) :
    XMBNavigationState :=
  match jsGet? categories s.x with
  | none => s
  | some c => ⟨s.x, min ((c.items.length : Int) - 1) (s.y + 1)⟩

end useXMBNavigation

/-- perf(A, singer1). -/
def perfA1 : Song := { id := "a1", title := "Song A", video_url := "a1", singer_id := "singer1" }

/-- perf(A, singer2). -/
def perfA2 : Song := { id := "a2", title := "Song A", video_url := "a2", singer_id := "singer2" }

/-- perf(B, singer1). -/
def perfB1 : Song := { id := "b1", title := "Song B", video_url := "b1", singer_id := "singer1" }

/-- Work-centric category for "Song A". -/
def catSongA : Category :=
  { id := "cat_song_Song A", title := "Song A", items := [.song perfA1, .song perfA2] }

/-- Work-centric category for "Song B". -/
def catSongB : Category :=
  { id := "cat_song_Song B", title := "Song B", items := [.song perfB1] }

/-- The work-centric grouping of the scenario. -/
def songCats : List Category := [catSongA, catSongB]

/-- Performer-centric category for singer1. -/
def catSinger1 : Category :=
  { id := "cat_singer_singer1", title := "Singer 1", items := [.song perfA1, .song perfB1] }

/-- Performer-centric category for singer2. -/
def catSinger2 : Category :=
  { id := "cat_singer_singer2", title := "Singer 2", items := [.song perfA2] }

/-- The performer-centric grouping of the scenario. -/
def singerCats : List Category := [catSinger1, catSinger2]

/-- A category with zero items. -/
def emptyCat : Category := { id := "cat_song_Empty", title := "Empty", items := [] }

/-- The spec's cursor invariant over a non-empty grouping:
both coordinates in bounds, `cursorY = 0` on an empty active category. -/
def NavInvariant (categories : List Category) (s : NavigationState) : Prop :=
  0 ≤ s.cursorX ∧ s.cursorX < categories.length ∧
  (match jsGet? categories s.cursorX with
   | some c =>
     (0 < c.items.length → 0 ≤ s.cursorY ∧ s.cursorY < c.items.length) ∧
     (c.items.length = 0 → s.cursorY = 0)
   | none => True)

/-- The observable state the pivot App mutates: the active `AxisMode`, the
display ordering, and the navigation cursor (which `handlePivot` never
writes). -/
structure PivotState where
  mode : AxisMode
  displayCategories : List Category
  cursor : XMBNavigationState
  deriving Repr, DecidableEq

/-- The mode flip `mode === "songs" ? "singers" : "songs"`. -/
def flipMode : AxisMode → AxisMode
  | .songs => .singers
  | .singers => .songs

/-- The item rendered at cursor coordinates:
`categories[x]?.items[y]` with JS out-of-bounds semantics. -/
def itemAt (cats : List Category) (x y : Int) : Option Item :=
  (jsGet? cats x).bind fun c => jsGet? c.items y

/-- Embedding of `handlePivot` from `src/App.tsx`.  Inputs are the React state it reads
(`selectedItem`, `mode`, the two base groupings, the current
`displayCategories` and `cursor`); the output is the state after the
invocation, or `.error` where the JS would throw (member access on
`undefined`).  Early `return`s leave the state unchanged. -/
def handlePivot (selectedItem : Option Item) (mode : AxisMode)
    (songCategories singerCategories displayCategories : List Category)
    (cursor : XMBNavigationState) : Except String PivotState :=
  match selectedItem with
  | none => .ok ⟨mode, displayCategories, cursor⟩
  | some (.singer _) => .ok ⟨mode, displayCategories, cursor⟩
  | some (.song songItem) =>
    let newMode := flipMode mode
    let baseCategories :=
      match newMode with
      | .songs => songCategories
      | .singers => singerCategories
    if baseCategories.length = 0 then .ok ⟨mode, displayCategories, cursor⟩
    else
      let currentX := cursor.x
      let currentY := cursor.y
      let baseX : Int :=
        match newMode with
        | .songs =>
          jsFindIndex baseCategories (fun c => c.title == songItem.title)
        | .singers =>
          jsFindIndex baseCategories
            (fun c => c.id == "cat_singer_" ++ songItem.singer_id)
      let baseY : Int :=
        if baseX = -1 then -1
        else
          let baseItems :=
            match jsGet? baseCategories baseX with
            | some c => c.items
            | none => []
          match newMode with
          | .songs =>
            jsFindIndex baseItems (fun i =>
              match i with
              | .song s2 => s2.singer_id == songItem.singer_id
              | .singer _ => false)
          | .singers =>
            jsFindIndex baseItems (fun i =>
              match i with
              | .song s2 => s2.title == songItem.title
              | .singer _ => false)
      if baseX = -1 ∨ baseY = -1 then .ok ⟨newMode, baseCategories, cursor⟩
      else
        let rotatedCategories := rotateToIndex baseCategories baseX currentX
        match jsGet? rotatedCategories currentX with
        | none => .error "TypeError: cannot read properties of undefined"
        | some targetCategory =>
          let items := targetCategory.items
          let finalCategories :=
            if 0 < items.length then
              let targetY :=
                ((currentY.tmod items.length) + items.length).tmod items.length
              let rotatedItems := rotateToIndex items baseY targetY
              rotatedCategories.set currentX.toNat
                { targetCategory with items := rotatedItems }
            else rotatedCategories
          .ok ⟨newMode, finalCategories, cursor⟩

/-- The grouping `handlePivot` pivots into (read off `flipMode mode`). -/
def pivotTarget (mode : AxisMode)
    (songCategories singerCategories : List Category) : List Category :=
  match flipMode mode with
  | .songs => songCategories
  | .singers => singerCategories

/-- The category-match predicate `handlePivot` uses on the target grouping
(title match into song-centric mode, id match into singer-centric mode). -/
def pivotCatPred (mode : AxisMode) (songItem : Song) : Category → Bool :=
  match flipMode mode with
  | .songs => fun c => c.title == songItem.title
  | .singers => fun c => c.id == "cat_singer_" ++ songItem.singer_id

/-- The item-match predicate `handlePivot` uses inside the matched
category. -/
def pivotItemPred (mode : AxisMode) (songItem : Song) : Item → Bool :=
  match flipMode mode with
  | .songs => fun i =>
    match i with
    | .song s2 => s2.singer_id == songItem.singer_id
    | .singer _ => false
  | .singers => fun i =>
    match i with
    | .song s2 => s2.title == songItem.title
    | .singer _ => false

/-- A selection whose performer does not exist in the performer-centric
grouping (a malformed-registry selection). -/
def ghostSong : Song :=
  { id := "g", title := "Song A", video_url := "g", singer_id := "zzz" }

/-- Embedding of `Array.from(new Set(l))`: deduplication preserving first-seen
(insertion) order. -/
def jsSetFrom {α : Type _} [DecidableEq α] (l : List α) : List α :=
  l.foldl (fun acc t => if t ∈ acc then acc else acc ++ [t]) []

/-- The display enrichment `{...cover, singer_name: singer?.name,
singer_avatar: singer?.avatar_url}` applied inside the work-centric
grouping. -/
def enrichWithSinger (singersList : List Singer) (cover : Song) : Song :=
  let singer := singersList.find? (fun s => s.id == cover.singer_id)
  { cover with
    singer_name := singer.map Singer.name
    singer_avatar := singer.map Singer.avatar_url }

/-- Mode A of `useData`: one category per distinct title, in first-seen
order, each holding the covers of that title in registry order. -/
def songCategoriesOf (songs : List Song) (singersList : List Singer) :
    List Category :=
  let uniqueTitles := jsSetFrom (songs.map Song.title)
  uniqueTitles.map (fun title =>
    let covers := songs.filter (fun s => s.title == title)
    let items := covers.map (fun cover =>
      Item.song (enrichWithSinger singersList cover))
    { id := "cat_song_" ++ title, title := title, items := items,
      type := "songs" })

/-- Mode B of `useData`: one category per singer of `singersList`, holding
that singer's covers in registry order. -/
def singerCategoriesOf (songs : List Song) (singersList : List Singer) :
    List Category :=
  singersList.map (fun singer =>
    let singerSongs := songs.filter (fun s => s.singer_id == singer.id)
    let items := singerSongs.map (fun s =>
      Item.song { s with
        singer_name := some singer.name
        singer_avatar := some singer.avatar_url })
    { id := "cat_singer_" ++ singer.id, title := singer.name,
      avatar_url := some singer.avatar_url, items := items,
      type := "songs" })

/-- Two items carry the same performance identity (same work title and
performer identity). -/
def sameIdentityB : Item → Item → Bool
  | .song a, .song b => a.title == b.title && a.singer_id == b.singer_id
  | .singer a, .singer b => a.id == b.id
  | _, _ => false

/-- The performance `p` appears (as its display-enriched copy) in category
`c`: some song item of `c` has `p`'s id, work title and performer
identity. -/
def appearsIn (p : Song) (c : Category) : Prop :=
  ∃ q : Song, Item.song q ∈ c.items ∧ q.id = p.id ∧ q.title = p.title ∧
    q.singer_id = p.singer_id

/-- Two distinct covers of the same song by the same singer (distinct video
ids, same work+performer pair) — a legal input to the grouping builders. -/
def dupSongX1 : Song :=
  { id := "v1", title := "Song X", video_url := "v1", singer_id := "sx" }

/-- Second cover with the same (work, performer) pair as `dupSongX1`. -/
def dupSongX2 : Song :=
  { id := "v2", title := "Song X", video_url := "v2", singer_id := "sx" }

/-- The performer of the duplicate-pair covers. -/
def singerX : Singer := { id := "sx", name := "sx", avatar_url := "" }

/-- Singer record for "singer1". -/
def singer1 : Singer := { id := "singer1", name := "Singer 1", avatar_url := "" }

/-- Singer record for "singer2". -/
def singer2 : Singer := { id := "singer2", name := "Singer 2", avatar_url := "" }

/-! ## Lemmas and claim theorems -/

lemma tmod_neg_left (a n : Int) : (-a).tmod n = -(a.tmod n) := by
  simp [Int.tmod_def, Int.neg_tdiv]
  ring

lemma neg_lt_tmod (a : Int) {n : Int} (hn : 0 < n) : -n < a.tmod n := by
  rcases le_or_lt 0 a with h | h
  · have := Int.tmod_nonneg n h
    omega
  · have h2 : (-a).tmod n < n := Int.tmod_lt_of_pos _ hn
    have h3 : a = -(-a) := by ring
    rw [h3, tmod_neg_left]
    omega

/-- The JS normalization idiom `((a % n) + n) % n` computes the
mathematical (Euclidean) remainder. -/
lemma tmod_wrap (a : Int) {n : Int} (hn : 0 < n) :
    (a.tmod n + n).tmod n = a % n := by
  have h1 : -n < a.tmod n := neg_lt_tmod a hn
  have h3 : 0 ≤ a.tmod n + n := by omega
  rw [Int.tmod_eq_emod h3 (le_of_lt hn)]
  have h4 : (a.tmod n + n) % n = a.tmod n % n := by
    have := Int.add_mul_emod_self_left (a.tmod n) n 1
    simp only [mul_one] at this
    exact this
  rw [h4]
  conv_rhs => rw [← Int.tmod_add_tdiv a n]
  rw [Int.add_mul_emod_self_left]

lemma rotateToIndex_length {α : Type _} [Inhabited α] (items : List α)
    (f t : Int) : (rotateToIndex items f t).length = items.length := by
  unfold rotateToIndex
  split <;> simp

/-- Pointwise contract of `rotateToIndex`, with the offset written with the
Euclidean remainder exactly as the specification states it. -/
lemma rotateToIndex_get?_spec {α : Type _} [Inhabited α] (items : List α)
    (fromIndex : Nat) (toIndex : Int) (hf : fromIndex < items.length)
    (i : Nat) (hi : i < items.length) :
    (rotateToIndex items fromIndex toIndex).get? i =
      items.get? ((((i : Int) -
        ((toIndex % items.length - fromIndex + items.length) % items.length) +
        items.length) % items.length).toNat) := by
  have hn : 0 < (items.length : Int) := by omega
  have hne : ¬ items.length = 0 := by omega
  have hmain : (rotateToIndex items fromIndex toIndex).get? i =
      some (items.getD ((((i : Int) -
        (((toIndex.tmod items.length + items.length).tmod items.length -
          fromIndex + items.length).tmod items.length) +
        items.length).tmod items.length).toNat) default) := by
    unfold rotateToIndex
    rw [if_neg hne]
    rw [List.get?_map, List.get?_range hi]
    rfl
  rw [hmain]
  have hN : ((toIndex.tmod items.length + items.length).tmod items.length :
      Int) = toIndex % items.length := tmod_wrap toIndex hn
  have hN0 : 0 ≤ toIndex % (items.length : Int) := Int.emod_nonneg _ (by omega)
  have hN1 : toIndex % (items.length : Int) < items.length :=
    Int.emod_lt_of_pos _ hn
  -- the code's offset equals the spec's Euclidean-mod offset
  have hD0 : 0 ≤ toIndex % (items.length : Int) - fromIndex + items.length := by
    omega
  have hO : ((toIndex.tmod items.length + items.length).tmod items.length -
      fromIndex + items.length).tmod items.length =
      (toIndex % items.length - fromIndex + items.length) %
        (items.length : Int) := by
    rw [hN, Int.tmod_eq_emod hD0 (le_of_lt hn)]
  rw [hO]
  have hO0 : 0 ≤ (toIndex % items.length - fromIndex + items.length) %
      (items.length : Int) := Int.emod_nonneg _ (by omega)
  have hO1 : (toIndex % items.length - fromIndex + items.length) %
      (items.length : Int) < items.length := Int.emod_lt_of_pos _ hn
  have hE0 : 0 ≤ (i : Int) -
      (toIndex % items.length - fromIndex + items.length) %
        (items.length : Int) + items.length := by omega
  rw [Int.tmod_eq_emod hE0 (le_of_lt hn)]
  have hS0 : 0 ≤ ((i : Int) -
      (toIndex % items.length - fromIndex + items.length) %
        (items.length : Int) + items.length) % items.length :=
    Int.emod_nonneg _ (by omega)
  have hS1 : ((i : Int) -
      (toIndex % items.length - fromIndex + items.length) %
        (items.length : Int) + items.length) % items.length < items.length :=
    Int.emod_lt_of_pos _ hn
  have hSlt : (((i : Int) -
      (toIndex % items.length - fromIndex + items.length) %
        (items.length : Int) + items.length) % items.length).toNat <
      items.length := by omega
  rw [List.getD_eq_get?, List.get?_eq_get hSlt]
  simp

/-- The element originally at `fromIndex` lands exactly at the normalized
target position `toIndex mod length`. -/
lemma rotateToIndex_get?_at_target {α : Type _} [Inhabited α]
    (items : List α) (fromIndex : Nat) (toIndex : Int)
    (hf : fromIndex < items.length) :
    (rotateToIndex items fromIndex toIndex).get?
        ((toIndex % items.length).toNat) = items.get? fromIndex := by
  have hn : 0 < (items.length : Int) := by omega
  have hN0 : 0 ≤ toIndex % (items.length : Int) := Int.emod_nonneg _ (by omega)
  have hN1 : toIndex % (items.length : Int) < items.length :=
    Int.emod_lt_of_pos _ hn
  have hi : (toIndex % (items.length : Int)).toNat < items.length := by omega
  rw [rotateToIndex_get?_spec items fromIndex toIndex hf _ hi]
  congr 1
  have hcast : ((toIndex % (items.length : Int)).toNat : Int) =
      toIndex % (items.length : Int) := Int.toNat_of_nonneg hN0
  rw [hcast]
  -- abbreviations: N = normalized target, D = N - fromIndex + n
  have key : (toIndex % (items.length : Int) -
      (toIndex % items.length - fromIndex + items.length) %
        (items.length : Int) + items.length) % (items.length : Int) =
      (fromIndex : Int) := by
    have e1 : (toIndex % (items.length : Int) -
        (toIndex % items.length - fromIndex + items.length) %
          (items.length : Int) + items.length) % (items.length : Int) =
        ((toIndex % (items.length : Int) + items.length) -
          (toIndex % items.length - fromIndex + items.length) %
            (items.length : Int)) % (items.length : Int) := by
      ring_nf
    rw [e1, Int.sub_emod,
      Int.emod_emod_of_dvd _ (dvd_refl (items.length : Int)),
      ← Int.sub_emod]
    have e2 : (toIndex % (items.length : Int) + items.length) -
        (toIndex % items.length - fromIndex + items.length) =
        (fromIndex : Int) := by ring
    rw [e2]
    exact Int.emod_eq_of_lt (by omega) (by omega)
  rw [key]
  simp

lemma jsGet?_nat (l : List α) (i : Nat) : jsGet? l (i : Int) = l.get? i := by
  simp [jsGet?]

lemma jsGet?_of_lt (l : List α) (i : Nat) (h : i < l.length) :
    jsGet? l (i : Int) = some (l.get ⟨i, h⟩) := by
  rw [jsGet?_nat, List.get?_eq_get h]

lemma jsFindIndex_eq_neg_one_iff (l : List α) (p : α → Bool) :
    jsFindIndex l p = -1 ↔ l.findIdx? p = none := by
  unfold jsFindIndex
  cases h : l.findIdx? p with
  | none => simp
  | some i => simp

lemma jsFindIndex_of_some {l : List α} {p : α → Bool} {i : Nat}
    (h : l.findIdx? p = some i) : jsFindIndex l p = (i : Int) ∧ i < l.length := by
  refine ⟨by simp [jsFindIndex, h], ?_⟩
  exact (List.findIdx?_eq_some_iff_findIdx_eq.mp h).1

lemma moveRight_cursorX (categories : List Category) (s : NavigationState)
    (hN : 0 < categories.length) (hx0 : 0 ≤ s.cursorX)
    (_hx1 : s.cursorX < categories.length) :
    (NavigationController.moveRight categories s).cursorX =
      (s.cursorX + 1) % (categories.length : Int) := by
  unfold NavigationController.moveRight
  rw [if_neg (by omega)]
  exact Int.tmod_eq_emod (by omega) (by omega)

lemma moveRight_cursorX_mem (categories : List Category) (s : NavigationState)
    (hN : 0 < categories.length) (hx0 : 0 ≤ s.cursorX)
    (hx1 : s.cursorX < categories.length) :
    0 ≤ (NavigationController.moveRight categories s).cursorX ∧
      (NavigationController.moveRight categories s).cursorX <
        categories.length := by
  rw [moveRight_cursorX categories s hN hx0 hx1]
  constructor
  · exact Int.emod_nonneg _ (by omega)
  · exact Int.emod_lt_of_pos _ (by omega)

lemma moveRight_iterate_cursorX (categories : List Category)
    (s : NavigationState) (hN : 0 < categories.length) (hx0 : 0 ≤ s.cursorX)
    (hx1 : s.cursorX < categories.length) (k : Nat) :
    ((NavigationController.moveRight categories)^[k] s).cursorX =
      (s.cursorX + k) % (categories.length : Int) := by
  induction k with
  | zero =>
    simp only [Function.iterate_zero, id_eq, Nat.cast_zero, add_zero]
    exact (Int.emod_eq_of_lt hx0 hx1).symm
  | succ k ih =>
    rw [Function.iterate_succ_apply']
    have hmem0 : 0 ≤ ((NavigationController.moveRight categories)^[k] s).cursorX := by
      rw [ih]
      exact Int.emod_nonneg _ (by omega)
    have hmem1 : ((NavigationController.moveRight categories)^[k] s).cursorX <
        categories.length := by
      rw [ih]
      exact Int.emod_lt_of_pos _ (by omega)
    rw [moveRight_cursorX categories _ hN hmem0 hmem1, ih,
      Int.emod_add_emod]
    push_cast
    ring_nf

/-- C2: for every array `items` of length `n > 0`, `fromIndex ∈ [0, n)` and
any integer `toIndex`, with `offset = (normalize(toIndex) - fromIndex + n)
mod n`, the output at every position `i` equals
`items[(i - offset + n) mod n]`; in particular the output at the normalized
target position `toIndex mod n` is `items[fromIndex]`, and the length is
preserved; for `n = 0` the input is returned unchanged.  (The embedding is a
pure function, so non-mutation of the input is inherent.) -/
theorem C2_rotateToIndex_contract {α : Type _} [Inhabited α]
    (items : List α) (fromIndex : Nat) (toIndex : Int) :
    (items.length = 0 → rotateToIndex items fromIndex toIndex = items) ∧
    (fromIndex < items.length →
      (rotateToIndex items fromIndex toIndex).length = items.length ∧
      (∀ i : Nat, i < items.length →
        (rotateToIndex items fromIndex toIndex).get? i =
          items.get? ((((i : Int) -
            ((toIndex % items.length - fromIndex + items.length) %
              items.length) + items.length) % items.length).toNat)) ∧
      (rotateToIndex items fromIndex toIndex).get?
          ((toIndex % items.length).toNat) = items.get? fromIndex) := by
  refine ⟨?_, fun hf => ⟨rotateToIndex_length items fromIndex toIndex,
    fun i hi => rotateToIndex_get?_spec items fromIndex toIndex hf i hi,
    rotateToIndex_get?_at_target items fromIndex toIndex hf⟩⟩
  intro h
  unfold rotateToIndex
  rw [if_pos h]

/-- Witness for C2 at `items = [10, 20, 30]`, `fromIndex = 1`, `toIndex = 5`:
the element `20` lands at position `5 mod 3 = 2`. -/
theorem C2_witness :
    (rotateToIndex ([10, 20, 30] : List Nat) 1 5).get? 2 = some 20 := by
  have h := (C2_rotateToIndex_contract ([10, 20, 30] : List Nat) 1 5).2
    (by decide)
  have h2 := h.2.2
  have h3 : (((5 : Int) % (([10, 20, 30] : List Nat).length : Int)).toNat) = 2 := by
    decide
  rw [h3] at h2
  exact h2.trans (by rfl)

/-- C3 counterexample: in the `useXMBNavigation` hook, `moveRight` at the
last category (index 1 of 2) clamps and stays at 1, whereas the claim
demands `(1 + 1) mod 2 = 0`;  so "for every grouping … moveRight advances
categoryIndex by +1 modulo N" is false of the hook cited by the claim. -/
theorem C3_counterexample :
    (useXMBNavigation.moveRight songCats ⟨1, 0⟩).x = 1 ∧
      ¬ (useXMBNavigation.moveRight songCats ⟨1, 0⟩).x =
        (1 + 1) % (songCats.length : Int) := by
  constructor
  · rfl
  · decide

/-- C3 (amended): in `NavigationController`, horizontal moves are cyclic:
for `N > 0` categories and an in-bounds cursor, `moveRight` advances
`cursorX` by `+1` modulo `N` and `moveLeft` by `-1` modulo `N` (no-op when
`N = 0`), and `N` successive `moveRight` calls restore `cursorX`.  The
`useXMBNavigation` hook's horizontal moves instead clamp at the edges. -/
theorem C3_horizontal_cyclic (categories : List Category)
    (s : NavigationState) :
    (categories.length = 0 →
      NavigationController.moveLeft categories s = s ∧
      NavigationController.moveRight categories s = s) ∧
    (0 < categories.length → 0 ≤ s.cursorX →
      s.cursorX < categories.length →
      (NavigationController.moveRight categories s).cursorX =
        (s.cursorX + 1) % (categories.length : Int) ∧
      (NavigationController.moveLeft categories s).cursorX =
        (s.cursorX - 1) % (categories.length : Int) ∧
      ((NavigationController.moveRight categories)^[categories.length]
        s).cursorX = s.cursorX) := by
  constructor
  · intro h
    constructor
    · unfold NavigationController.moveLeft
      rw [if_pos h]
    · unfold NavigationController.moveRight
      rw [if_pos h]
  · intro hN hx0 hx1
    refine ⟨moveRight_cursorX categories s hN hx0 hx1, ?_, ?_⟩
    · unfold NavigationController.moveLeft
      rw [if_neg (by omega)]
      show (s.cursorX - 1 + (categories.length : Int)).tmod categories.length
        = _
      rw [Int.tmod_eq_emod (by omega) (by omega)]
      have := Int.add_mul_emod_self_left (s.cursorX - 1)
        (categories.length : Int) 1
      simp only [mul_one] at this
      exact this
    · rw [moveRight_iterate_cursorX categories s hN hx0 hx1
        categories.length]
      have : (s.cursorX + (categories.length : Int)) %
          (categories.length : Int) = s.cursorX % categories.length := by
        have := Int.add_mul_emod_self_left s.cursorX
          (categories.length : Int) 1
        simp only [mul_one] at this
        exact this
      rw [this]
      exact Int.emod_eq_of_lt hx0 hx1

/-- Witness for C3 on the scenario grouping (`N = 2`) from cursor `(0, 1)`. -/
theorem C3_witness :
    (NavigationController.moveRight songCats ⟨0, 1⟩).cursorX =
        (0 + 1) % (songCats.length : Int) ∧
      ((NavigationController.moveRight songCats)^[songCats.length]
        ⟨0, 1⟩).cursorX = (0 : Int) := by
  have h := (C3_horizontal_cyclic songCats ⟨0, 1⟩).2 (by decide) (by decide)
    (by decide)
  exact ⟨h.1, h.2.2⟩

lemma jsGet?_eq_some_iff {l : List α} {i : Int} {a : α} :
    jsGet? l i = some a ↔ 0 ≤ i ∧ l.get? i.toNat = some a := by
  unfold jsGet?
  split
  · simp_all
  · simp_all

/-- C4 counterexample: the `useXMBNavigation` hook resets `y` to `0` on
`moveLeft` — moving from category 1 to category 0 of the scenario grouping
(`catSongA`, 2 items) with `itemIndex = 1` yields `0`, whereas the claimed
clamp `min(1, 2-1) = 1` preserves it. -/
theorem C4_counterexample :
    (useXMBNavigation.moveLeft ⟨1, 1⟩).y = 0 ∧
      ¬ ((useXMBNavigation.moveLeft ⟨1, 1⟩).y =
        max 0 (min 1 ((catSongA.items.length : Int) - 1))) := by
  constructor
  · rfl
  · decide

/-- C4 (amended): in `NavigationController`, after every `moveLeft` /
`moveRight` the new `cursorY` is the clamp of the old one against the new
category's item count — `max(0, min(cursorY, newCount-1))`, and `0` when the
new category is empty; the `useXMBNavigation` hook instead resets it to 0. -/
theorem C4_clamp_on_horizontal (categories : List Category)
    (s : NavigationState) (hN : 0 < categories.length) (hy0 : 0 ≤ s.cursorY) :
    (∀ c, jsGet? categories
        ((s.cursorX + 1).tmod (categories.length : Int)) = some c →
      (NavigationController.moveRight categories s).cursorY =
        if 0 < c.items.length then
          max 0 (min s.cursorY ((c.items.length : Int) - 1))
        else 0) ∧
    (∀ c, jsGet? categories
        ((s.cursorX - 1 + categories.length).tmod (categories.length : Int)) =
          some c →
      (NavigationController.moveLeft categories s).cursorY =
        if 0 < c.items.length then
          max 0 (min s.cursorY ((c.items.length : Int) - 1))
        else 0) := by
  constructor
  · intro c hc
    unfold NavigationController.moveRight
    rw [if_neg (by omega)]
    simp only [hc]
    split <;> omega
  · intro c hc
    unfold NavigationController.moveLeft
    rw [if_neg (by omega)]
    simp only [hc]
    split <;> omega

/-- Witness for C4: `moveLeft` on the scenario grouping from `(1, 1)` lands
on `catSongA` (2 items) and preserves `cursorY = 1`. -/
theorem C4_witness :
    (NavigationController.moveLeft songCats ⟨1, 1⟩).cursorY =
      if 0 < catSongA.items.length then
        max 0 (min 1 ((catSongA.items.length : Int) - 1))
      else 0 := by
  have h := (C4_clamp_on_horizontal songCats ⟨1, 1⟩ (by decide) (by decide)).2
    catSongA (by decide)
  exact h

lemma jsGet?_isSome_of_lt (l : List α) (i : Int) (h0 : 0 ≤ i)
    (h1 : i < l.length) : ∃ a, jsGet? l i = some a := by
  unfold jsGet?
  rw [if_pos h0]
  have h2 : i.toNat < l.length := by omega
  exact ⟨l.get ⟨i.toNat, h2⟩, List.get?_eq_get h2⟩

lemma NavInvariant.y_nonneg {categories : List Category}
    {s : NavigationState} (h : NavInvariant categories s) : 0 ≤ s.cursorY := by
  obtain ⟨h0, h1, h2⟩ := h
  obtain ⟨c, hc⟩ := jsGet?_isSome_of_lt categories s.cursorX h0 (by omega)
  rw [hc] at h2
  rcases Nat.eq_zero_or_pos c.items.length with hz | hp
  · rw [h2.2 hz]
  · exact (h2.1 hp).1

/-- C5 counterexample: the `useXMBNavigation` hook's `moveDown` on a single
empty category drives `itemIndex` to `-1`, violating the claimed invariant
(`itemIndex = 0` on an empty active category, and `0 ≤ itemIndex`). -/
theorem C5_counterexample :
    useXMBNavigation.moveDown [emptyCat] ⟨0, 0⟩ = ⟨0, -1⟩ ∧
      ¬ (useXMBNavigation.moveDown [emptyCat] ⟨0, 0⟩).y = 0 := by
  constructor
  · rfl
  · decide

/-- C5 (amended): over a non-empty grouping, `NavigationController`'s four
moves preserve the cursor bounds invariant and `updateCategories`
(re)establishes it from an arbitrary cursor state.  (The invariant does not
hold for the `useXMBNavigation` hook's moves, nor across a pivot fallback,
which leaves the cursor unclamped — see the counterexamples for C5/C6.) -/
theorem C5_invariant_maintained (categories : List Category)
    (s : NavigationState) (hN : 0 < categories.length) :
    (NavInvariant categories s →
      NavInvariant categories (NavigationController.moveLeft categories s) ∧
      NavInvariant categories (NavigationController.moveRight categories s) ∧
      NavInvariant categories (NavigationController.moveUp categories s) ∧
      NavInvariant categories (NavigationController.moveDown categories s)) ∧
    NavInvariant categories
      (NavigationController.updateCategories categories s) := by
  constructor
  · intro hinv
    have hy0 : 0 ≤ s.cursorY := hinv.y_nonneg
    obtain ⟨hx0, hx1, hmatch⟩ := hinv
    refine ⟨?_, ?_, ?_, ?_⟩
    · -- moveLeft
      unfold NavigationController.moveLeft
      rw [if_neg (by omega)]
      dsimp only
      have harg : 0 ≤ s.cursorX - 1 + (categories.length : Int) := by omega
      rw [Int.tmod_eq_emod harg (by omega)]
      have hX0 : 0 ≤ (s.cursorX - 1 + (categories.length : Int)) %
          (categories.length : Int) := Int.emod_nonneg _ (by omega)
      have hX1 : (s.cursorX - 1 + (categories.length : Int)) %
          (categories.length : Int) < categories.length :=
        Int.emod_lt_of_pos _ (by omega)
      refine ⟨hX0, hX1, ?_⟩
      cases hc : jsGet? categories
          ((s.cursorX - 1 + (categories.length : Int)) %
            (categories.length : Int)) with
      | none => simp only [hc]
      | some c =>
        simp only [hc]
        constructor
        · intro hp
          rw [if_pos (show (0 : Int) < c.items.length by omega)]
          omega
        · intro hz
          rw [if_neg (by omega)]
    · -- moveRight
      unfold NavigationController.moveRight
      rw [if_neg (by omega)]
      dsimp only
      rw [Int.tmod_eq_emod (by omega) (by omega)]
      have hX0 : 0 ≤ (s.cursorX + 1) % (categories.length : Int) :=
        Int.emod_nonneg _ (by omega)
      have hX1 : (s.cursorX + 1) % (categories.length : Int) <
          categories.length := Int.emod_lt_of_pos _ (by omega)
      refine ⟨hX0, hX1, ?_⟩
      cases hc : jsGet? categories
          ((s.cursorX + 1) % (categories.length : Int)) with
      | none => simp only [hc]
      | some c =>
        simp only [hc]
        constructor
        · intro hp
          rw [if_pos (show (0 : Int) < c.items.length by omega)]
          omega
        · intro hz
          rw [if_neg (by omega)]
    · -- moveUp
      unfold NavigationController.moveUp
      cases hc : jsGet? categories s.cursorX with
      | none => exact ⟨hx0, hx1, by rw [hc] at hmatch ⊢; exact hmatch⟩
      | some c =>
        rw [hc] at hmatch
        dsimp only at hmatch ⊢
        by_cases hz : c.items.length = 0
        · rw [if_pos hz]
          exact ⟨hx0, hx1, by rw [hc]; exact hmatch⟩
        · rw [if_neg hz]
          have hp : 0 < c.items.length := Nat.pos_of_ne_zero hz
          have hy1 : s.cursorY < c.items.length := (hmatch.1 hp).2
          have harg : 0 ≤ s.cursorY - 1 + (c.items.length : Int) := by omega
          refine ⟨hx0, hx1, ?_⟩
          rw [show (⟨s.cursorX, (s.cursorY - 1 +
            (c.items.length : Int)).tmod c.items.length⟩ :
            NavigationState).cursorX = s.cursorX from rfl, hc]
          constructor
          · intro _
            dsimp only
            rw [Int.tmod_eq_emod harg (by omega)]
            exact ⟨Int.emod_nonneg _ (by omega),
              Int.emod_lt_of_pos _ (by omega)⟩
          · intro h
            omega
    · -- moveDown
      unfold NavigationController.moveDown
      cases hc : jsGet? categories s.cursorX with
      | none => exact ⟨hx0, hx1, by rw [hc] at hmatch ⊢; exact hmatch⟩
      | some c =>
        rw [hc] at hmatch
        dsimp only at hmatch ⊢
        by_cases hz : c.items.length = 0
        · rw [if_pos hz]
          exact ⟨hx0, hx1, by rw [hc]; exact hmatch⟩
        · rw [if_neg hz]
          have hp : 0 < c.items.length := Nat.pos_of_ne_zero hz
          have hy1 : s.cursorY < c.items.length := (hmatch.1 hp).2
          refine ⟨hx0, hx1, ?_⟩
          rw [show (⟨s.cursorX, (s.cursorY + 1).tmod
            (c.items.length : Int)⟩ :
            NavigationState).cursorX = s.cursorX from rfl, hc]
          constructor
          · intro _
            dsimp only
            rw [Int.tmod_eq_emod (by omega) (by omega)]
            exact ⟨Int.emod_nonneg _ (by omega),
              Int.emod_lt_of_pos _ (by omega)⟩
          · intro h
            omega
  · -- updateCategories establishes the invariant from any state
    unfold NavigationController.updateCategories
    rw [if_pos (by omega)]
    dsimp only
    have hx0' : 0 ≤ max 0 (min s.cursorX ((categories.length : Int) - 1)) :=
      le_max_left 0 _
    have hx1' : max 0 (min s.cursorX ((categories.length : Int) - 1)) <
        categories.length := by omega
    refine ⟨hx0', hx1', ?_⟩
    cases hc : jsGet? categories
        (max 0 (min s.cursorX ((categories.length : Int) - 1))) with
    | none => simp only [hc]
    | some c =>
      simp only [hc]
      by_cases hz : 0 < c.items.length
      · rw [if_pos hz]
        constructor
        · intro _
          omega
        · intro h
          omega
      · rw [if_neg hz]
        constructor
        · intro h
          omega
        · intro _
          rfl

/-- Witness for C5: the invariant holds after a concrete `moveRight` from an
invariant state, and `updateCategories` establishes it even from the wild
cursor `(5, 7)`. -/
theorem C5_witness :
    NavInvariant songCats (NavigationController.moveRight songCats ⟨0, 1⟩) ∧
    NavInvariant songCats
      (NavigationController.updateCategories songCats ⟨5, 7⟩) := by
  have hinv : NavInvariant songCats ⟨0, 1⟩ := by
    refine ⟨by decide, by decide, ?_⟩
    rw [show jsGet? songCats ((⟨0, 1⟩ : NavigationState).cursorX) =
      some catSongA from rfl]
    exact ⟨fun _ => ⟨by decide, by decide⟩, fun h => absurd h (by decide)⟩
  exact ⟨((C5_invariant_maintained songCats ⟨0, 1⟩ (by decide)).1 hinv).2.1,
    (C5_invariant_maintained songCats ⟨5, 7⟩ (by decide)).2⟩

lemma moveDown_eq (categories : List Category) (s : NavigationState)
    (c : Category) (hc : jsGet? categories s.cursorX = some c)
    (hz : ¬ c.items.length = 0) :
    NavigationController.moveDown categories s =
      ⟨s.cursorX, (s.cursorY + 1).tmod (c.items.length : Int)⟩ := by
  unfold NavigationController.moveDown
  rw [hc]
  dsimp only
  rw [if_neg hz]

lemma moveDown_iterate (categories : List Category) (s : NavigationState)
    (c : Category) (hc : jsGet? categories s.cursorX = some c)
    (hM : 0 < c.items.length) (hy0 : 0 ≤ s.cursorY)
    (hy1 : s.cursorY < c.items.length) (k : Nat) :
    (NavigationController.moveDown categories)^[k] s =
      ⟨s.cursorX, (s.cursorY + k) % (c.items.length : Int)⟩ := by
  induction k with
  | zero =>
    simp only [Function.iterate_zero, id_eq, Nat.cast_zero, add_zero]
    rw [Int.emod_eq_of_lt hy0 hy1]
  | succ k ih =>
    rw [Function.iterate_succ_apply', ih]
    have hx : (⟨s.cursorX, (s.cursorY + k) % (c.items.length : Int)⟩ :
        NavigationState).cursorX = s.cursorX := rfl
    have hc' : jsGet? categories ((⟨s.cursorX,
        (s.cursorY + k) % (c.items.length : Int)⟩ :
        NavigationState).cursorX) = some c := hc
    rw [moveDown_eq categories _ c hc' (by omega)]
    have h0 : 0 ≤ (s.cursorY + k) % (c.items.length : Int) :=
      Int.emod_nonneg _ (by omega)
    rw [show (⟨s.cursorX, (s.cursorY + k) % (c.items.length : Int)⟩ :
      NavigationState).cursorY = (s.cursorY + k) % (c.items.length : Int)
      from rfl]
    rw [Int.tmod_eq_emod (by omega) (by omega), Int.emod_add_emod]
    congr 1
    push_cast
    ring_nf

/-- C8 counterexample: the `useXMBNavigation` hook's `moveDown` clamps
instead of wrapping — at the bottom of `catSongA` (2 items, `y = 1`) it
stays at 1, whereas the claim demands `(1 + 1) mod 2 = 0`. -/
theorem C8_counterexample :
    (useXMBNavigation.moveDown songCats ⟨0, 1⟩).y = 1 ∧
      ¬ ((useXMBNavigation.moveDown songCats ⟨0, 1⟩).y =
        (1 + 1) % (catSongA.items.length : Int)) := by
  constructor
  · rfl
  · decide

/-- C8 (amended): in `NavigationController`, vertical moves are cyclic
within the active category and total on empty ones: `moveDown` advances
`cursorY` by `+1` and `moveUp` by `-1` modulo the item count, `M` successive
`moveDown` calls restore `cursorY`, a category of size 1 is a fixed point,
and on a missing or empty category both moves are no-ops.  The
`useXMBNavigation` hook's vertical moves instead clamp at the ends. -/
theorem C8_vertical_cyclic (categories : List Category)
    (s : NavigationState) :
    (jsGet? categories s.cursorX = none →
      NavigationController.moveUp categories s = s ∧
      NavigationController.moveDown categories s = s) ∧
    (∀ c, jsGet? categories s.cursorX = some c →
      (c.items.length = 0 →
        NavigationController.moveUp categories s = s ∧
        NavigationController.moveDown categories s = s) ∧
      (0 < c.items.length → 0 ≤ s.cursorY → s.cursorY < c.items.length →
        (NavigationController.moveDown categories s).cursorY =
          (s.cursorY + 1) % (c.items.length : Int) ∧
        (NavigationController.moveUp categories s).cursorY =
          (s.cursorY - 1) % (c.items.length : Int) ∧
        ((NavigationController.moveDown categories)^[c.items.length]
          s).cursorY = s.cursorY ∧
        (c.items.length = 1 →
          NavigationController.moveDown categories s = s ∧
          NavigationController.moveUp categories s = s))) := by
  constructor
  · intro hc
    constructor
    · unfold NavigationController.moveUp
      rw [hc]
    · unfold NavigationController.moveDown
      rw [hc]
  · intro c hc
    constructor
    · intro hz
      constructor
      · unfold NavigationController.moveUp
        rw [hc]
        dsimp only
        rw [if_pos hz]
      · unfold NavigationController.moveDown
        rw [hc]
        dsimp only
        rw [if_pos hz]
    · intro hM hy0 hy1
      have hdown : (NavigationController.moveDown categories s).cursorY =
          (s.cursorY + 1) % (c.items.length : Int) := by
        rw [moveDown_eq categories s c hc (by omega)]
        exact Int.tmod_eq_emod (by omega) (by omega)
      have hup : (NavigationController.moveUp categories s).cursorY =
          (s.cursorY - 1) % (c.items.length : Int) := by
        unfold NavigationController.moveUp
        rw [hc]
        dsimp only
        rw [if_neg (by omega)]
        dsimp only
        rw [Int.tmod_eq_emod (by omega) (by omega)]
        have := Int.add_mul_emod_self_left (s.cursorY - 1)
          (c.items.length : Int) 1
        simp only [mul_one] at this
        exact this
      refine ⟨hdown, hup, ?_, ?_⟩
      · rw [moveDown_iterate categories s c hc hM hy0 hy1 c.items.length]
        show (s.cursorY + (c.items.length : Int)) %
          (c.items.length : Int) = s.cursorY
        have := Int.add_mul_emod_self_left s.cursorY
          (c.items.length : Int) 1
        simp only [mul_one] at this
        rw [this]
        exact Int.emod_eq_of_lt hy0 hy1
      · intro h1
        have hy : s.cursorY = 0 := by omega
        constructor
        · rw [moveDown_eq categories s c hc (by omega)]
          have : (s.cursorY + 1).tmod (c.items.length : Int) = s.cursorY := by
            rw [h1, hy]
            rfl
          rw [this]
        · unfold NavigationController.moveUp
          rw [hc]
          dsimp only
          rw [if_neg (by omega)]
          have : (s.cursorY - 1 + (c.items.length : Int)).tmod
              (c.items.length : Int) = s.cursorY := by
            rw [h1, hy]
            rfl
          rw [this]

/-- Witness for C8 on `catSongA` (2 items) from cursor `(0, 1)`. -/
theorem C8_witness :
    (NavigationController.moveDown songCats ⟨0, 1⟩).cursorY =
        (1 + 1) % (catSongA.items.length : Int) ∧
      ((NavigationController.moveDown songCats)^[catSongA.items.length]
        ⟨0, 1⟩).cursorY = (1 : Int) := by
  have h := ((C8_vertical_cyclic songCats ⟨0, 1⟩).2 catSongA rfl).2
    (by decide) (by decide) (by decide)
  exact ⟨h.1, h.2.2.1⟩

/-- C10: `getCurrentItem` is total and signals absence with `null`: it
returns `none` whenever `cursorX` is out of bounds, when the category
cannot be fetched, or when `cursorY` is out of the category's bounds
(including the empty-category case); otherwise it returns exactly
`categories[cursorX].items[cursorY]`. -/
theorem C10_getCurrentItem_total (categories : List Category)
    (s : NavigationState) :
    ((s.cursorX < 0 ∨ (categories.length : Int) ≤ s.cursorX) →
      NavigationController.getCurrentItem categories s = none) ∧
    (jsGet? categories s.cursorX = none →
      NavigationController.getCurrentItem categories s = none) ∧
    (∀ c, jsGet? categories s.cursorX = some c →
      ((s.cursorY < 0 ∨ (c.items.length : Int) ≤ s.cursorY) →
        NavigationController.getCurrentItem categories s = none) ∧
      (0 ≤ s.cursorY → s.cursorY < c.items.length →
        NavigationController.getCurrentItem categories s =
          c.items.get? s.cursorY.toNat)) := by
  refine ⟨?_, ?_, ?_⟩
  · intro h
    unfold NavigationController.getCurrentItem
    rw [if_pos h]
  · intro h
    unfold NavigationController.getCurrentItem
    split
    · rfl
    · rw [h]
  · intro c hc
    have hx0 : 0 ≤ s.cursorX := by
      rcases jsGet?_eq_some_iff.mp hc with ⟨h0, _⟩
      exact h0
    have hx1 : s.cursorX < categories.length := by
      rcases jsGet?_eq_some_iff.mp hc with ⟨h0, h1⟩
      have := List.get?_eq_some.mp h1
      obtain ⟨hlt, _⟩ := this
      omega
    constructor
    · intro hy
      unfold NavigationController.getCurrentItem
      rw [if_neg (by omega)]
      rw [hc]
      dsimp only
      rw [if_pos hy]
    · intro hy0 hy1
      unfold NavigationController.getCurrentItem
      rw [if_neg (by omega)]
      rw [hc]
      dsimp only
      rw [if_neg (by omega)]
      unfold jsGet?
      rw [if_pos hy0]

/-- Witness for C10: out-of-bounds cursors give `none`; the in-bounds cursor
`(0, 1)` gives `perf(A, singer2)`. -/
theorem C10_witness :
    NavigationController.getCurrentItem songCats ⟨2, 0⟩ = none ∧
    NavigationController.getCurrentItem songCats ⟨0, 1⟩ =
      some (.song perfA2) := by
  constructor
  · exact (C10_getCurrentItem_total songCats ⟨2, 0⟩).1 (by decide)
  · have h := ((C10_getCurrentItem_total songCats ⟨0, 1⟩).2.2 catSongA
      rfl).2 (by decide) (by decide)
    rw [h]
    rfl

/-- C7 counterexample: with no selection, `handlePivot` returns immediately —
Mode stays `songs` and the display ordering stays what it was; the claim's
"flips Mode and substitutes the target grouping's default ordering" is
false. -/
theorem C7_counterexample :
    handlePivot none .songs songCats singerCats songCats ⟨0, 0⟩ =
      .ok ⟨.songs, songCats, ⟨0, 0⟩⟩ ∧
    ¬ (handlePivot none .songs songCats singerCats songCats ⟨0, 0⟩ =
      .ok ⟨flipMode .songs, singerCats, ⟨0, 0⟩⟩) := by
  constructor
  · rfl
  · intro h
    have := Except.ok.inj h
    have hmode : AxisMode.songs = flipMode .songs := congrArg PivotState.mode this
    exact absurd hmode (by decide)

/-- C7 (amended): when the current selection is absent, or is a bare
performer record (no `title`/`singer_id` fields), `handlePivot` is a
complete no-op: Mode, display ordering and cursor are all left unchanged
(it does not flip Mode and does not substitute the target ordering). -/
theorem C7_pivot_noop_without_selection (mode : AxisMode)
    (songCategories singerCategories displayCategories : List Category)
    (cursor : XMBNavigationState) (sel : Option Item)
    (h : sel = none ∨ ∃ sg, sel = some (.singer sg)) :
    handlePivot sel mode songCategories singerCategories
      displayCategories cursor =
      .ok ⟨mode, displayCategories, cursor⟩ := by
  rcases h with rfl | ⟨sg, rfl⟩ <;> rfl

/-- Witness for C7 at a concrete no-selection invocation. -/
theorem C7_witness :
    handlePivot none .singers songCats singerCats singerCats ⟨1, 1⟩ =
      .ok ⟨.singers, singerCats, ⟨1, 1⟩⟩ :=
  C7_pivot_noop_without_selection .singers songCats singerCats singerCats
    ⟨1, 1⟩ none (Or.inl rfl)

/-- C6 (amended): when the selected performance's category or item cannot be
located in the target grouping, `handlePivot` falls back to the target
grouping's default (unrotated) ordering, switches Mode, and does not throw —
but it leaves the cursor exactly where it was (it is NOT reset to `(0,0)`
nor clamped against the substituted ordering). -/
theorem C6_fallback_on_lookup_failure (mode : AxisMode)
    (songCategories singerCategories displayCategories : List Category)
    (cursor : XMBNavigationState) (songItem : Song)
    (hlen : 0 < (pivotTarget mode songCategories singerCategories).length)
    (hfail :
      List.findIdx? (pivotCatPred mode songItem)
        (pivotTarget mode songCategories singerCategories) = none ∨
      ∃ bx c, List.findIdx? (pivotCatPred mode songItem)
          (pivotTarget mode songCategories singerCategories) = some bx ∧
        jsGet? (pivotTarget mode songCategories singerCategories) (bx : Int) =
          some c ∧
        List.findIdx? (pivotItemPred mode songItem) c.items = none) :
    handlePivot (some (.song songItem)) mode songCategories singerCategories
      displayCategories cursor =
      .ok ⟨flipMode mode, pivotTarget mode songCategories singerCategories,
        cursor⟩ := by
  cases mode with
  | songs =>
    simp only [pivotTarget, pivotCatPred, pivotItemPred, flipMode]
      at hlen hfail ⊢
    unfold handlePivot
    dsimp only [flipMode]
    rw [if_neg (by omega)]
    rcases hfail with hnone | ⟨bx, c, hbx, hc, hinone⟩
    · have hX : jsFindIndex singerCategories
          (fun c => c.id == "cat_singer_" ++ songItem.singer_id) = -1 :=
        (jsFindIndex_eq_neg_one_iff _ _).mpr hnone
      rw [hX]
      simp
    · obtain ⟨hX, hbxlt⟩ := jsFindIndex_of_some hbx
      rw [hX]
      have hne : ¬ ((bx : Int) = -1) := by omega
      rw [if_neg hne, hc]
      have hY : jsFindIndex c.items (fun i =>
          match i with
          | .song s2 => s2.title == songItem.title
          | .singer _ => false) = -1 :=
        (jsFindIndex_eq_neg_one_iff _ _).mpr hinone
      rw [hY]
      rw [if_pos (Or.inr rfl)]
  | singers =>
    simp only [pivotTarget, pivotCatPred, pivotItemPred, flipMode]
      at hlen hfail ⊢
    unfold handlePivot
    dsimp only [flipMode]
    rw [if_neg (by omega)]
    rcases hfail with hnone | ⟨bx, c, hbx, hc, hinone⟩
    · have hX : jsFindIndex songCategories
          (fun c => c.title == songItem.title) = -1 :=
        (jsFindIndex_eq_neg_one_iff _ _).mpr hnone
      rw [hX]
      simp
    · obtain ⟨hX, hbxlt⟩ := jsFindIndex_of_some hbx
      rw [hX]
      have hne : ¬ ((bx : Int) = -1) := by omega
      rw [if_neg hne, hc]
      have hY : jsFindIndex c.items (fun i =>
          match i with
          | .song s2 => s2.singer_id == songItem.singer_id
          | .singer _ => false) = -1 :=
        (jsFindIndex_eq_neg_one_iff _ _).mpr hinone
      rw [hY]
      rw [if_pos (Or.inr rfl)]

/-- C6 counterexample: on lookup failure the code leaves the cursor at
`(5, 0)` — neither `(0,0)` nor a clamped equivalent (it is out of bounds of
the substituted 2-category ordering), refuting the claim's cursor clause. -/
theorem C6_counterexample :
    handlePivot (some (.song ghostSong)) .songs songCats singerCats songCats
        ⟨5, 0⟩ = .ok ⟨.singers, singerCats, ⟨5, 0⟩⟩ ∧
    ¬ ((⟨5, 0⟩ : XMBNavigationState) = ⟨0, 0⟩) ∧
    ¬ ((5 : Int) < (singerCats.length : Int)) := by
  refine ⟨rfl, by decide, by decide⟩

/-- Witness for C6 at a concrete failed lookup (unknown performer). -/
theorem C6_witness :
    handlePivot (some (.song ghostSong)) .songs songCats singerCats songCats
        ⟨1, 1⟩ =
      .ok ⟨flipMode .songs, pivotTarget .songs songCats singerCats,
        ⟨1, 1⟩⟩ :=
  C6_fallback_on_lookup_failure .songs songCats singerCats songCats ⟨1, 1⟩
    ghostSong (by decide) (Or.inl (by decide))

/-- C1 (amended): when the selection is a performance, its category and item
are found in the target grouping, the matched entry carries the selection's
identity (same work title and performer identity — well-formed grouping
data), and the cursor's coordinates are within the target grouping's bounds
(`cursor.x < #target categories`, `cursor.y < #items of the matched
category`), then the pivot keeps the cursor coordinates unchanged and the
item stored at those coordinates afterwards is that same performance.
Without the bounds hypotheses the code throws or displaces the selection
(see the counterexample). -/
theorem C1_pivot_preserves_selection (mode : AxisMode)
    (songCategories singerCategories displayCategories : List Category)
    (cursor : XMBNavigationState) (songItem : Song) (bx : Nat) (c : Category)
    (byIdx : Nat) (m : Song)
    (hbx : List.findIdx? (pivotCatPred mode songItem)
      (pivotTarget mode songCategories singerCategories) = some bx)
    (hcat : (pivotTarget mode songCategories singerCategories).get? bx =
      some c)
    (hby : List.findIdx? (pivotItemPred mode songItem) c.items = some byIdx)
    (hid : c.items.get? byIdx = some (.song m))
    (htitle : m.title = songItem.title)
    (hsinger : m.singer_id = songItem.singer_id)
    (hcx0 : 0 ≤ cursor.x)
    (hcx1 : cursor.x <
      (pivotTarget mode songCategories singerCategories).length)
    (hcy0 : 0 ≤ cursor.y) (hcy1 : cursor.y < c.items.length) :
    ∃ finalCategories,
      handlePivot (some (.song songItem)) mode songCategories
          singerCategories displayCategories cursor =
        .ok ⟨flipMode mode, finalCategories, cursor⟩ ∧
      itemAt finalCategories cursor.x cursor.y = some (.song m) ∧
      m.title = songItem.title ∧ m.singer_id = songItem.singer_id := by
  cases mode with
  | songs =>
    simp only [pivotTarget, pivotCatPred, pivotItemPred, flipMode]
      at hbx hcat hby hcx1 ⊢
    unfold handlePivot
    dsimp only [flipMode]
    rw [if_neg (by omega)]
    obtain ⟨hX, hbxlt⟩ := jsFindIndex_of_some hbx
    rw [hX]
    rw [if_neg (show ¬ ((bx : Int) = -1) by omega)]
    have hc' : jsGet? singerCategories (bx : Int) = some c := by
      rw [jsGet?_nat]
      exact hcat
    rw [hc']
    obtain ⟨hY, hbylt⟩ := jsFindIndex_of_some hby
    rw [hY]
    rw [if_neg (show ¬ ((bx : Int) = -1 ∨ (byIdx : Int) = -1) by
      push_neg
      omega)]
    have hrc : jsGet? (rotateToIndex singerCategories (bx : Int) cursor.x)
        cursor.x = some c := by
      unfold jsGet?
      rw [if_pos hcx0]
      have htarget := rotateToIndex_get?_at_target singerCategories bx
        cursor.x hbxlt
      rw [show cursor.x % (singerCategories.length : Int) = cursor.x from
        Int.emod_eq_of_lt hcx0 (by omega)] at htarget
      rw [htarget]
      exact hcat
    rw [hrc]
    dsimp only
    rw [if_pos (show 0 < c.items.length by omega)]
    have htY : ((cursor.y.tmod (c.items.length : Int)) +
        (c.items.length : Int)).tmod (c.items.length : Int) = cursor.y := by
      rw [tmod_wrap _ (by omega)]
      exact Int.emod_eq_of_lt hcy0 (by omega)
    rw [htY]
    refine ⟨_, rfl, ?_, htitle, hsinger⟩
    unfold itemAt
    have hsetget : ∀ newCat : Category,
        jsGet? ((rotateToIndex singerCategories (bx : Int)
          cursor.x).set cursor.x.toNat newCat) cursor.x = some newCat := by
      intro newCat
      unfold jsGet?
      rw [if_pos hcx0]
      rw [List.get?_set_eq]
      obtain ⟨-, hget⟩ := jsGet?_eq_some_iff.mp hrc
      rw [hget]
      rfl
    rw [hsetget, Option.some_bind]
    unfold jsGet?
    rw [if_pos hcy0]
    have hitem := rotateToIndex_get?_at_target c.items byIdx cursor.y hbylt
    rw [show cursor.y % (c.items.length : Int) = cursor.y from
      Int.emod_eq_of_lt hcy0 (by omega)] at hitem
    dsimp only
    rw [hitem]
    exact hid
  | singers =>
    simp only [pivotTarget, pivotCatPred, pivotItemPred, flipMode]
      at hbx hcat hby hcx1 ⊢
    unfold handlePivot
    dsimp only [flipMode]
    rw [if_neg (by omega)]
    obtain ⟨hX, hbxlt⟩ := jsFindIndex_of_some hbx
    rw [hX]
    rw [if_neg (show ¬ ((bx : Int) = -1) by omega)]
    have hc' : jsGet? songCategories (bx : Int) = some c := by
      rw [jsGet?_nat]
      exact hcat
    rw [hc']
    obtain ⟨hY, hbylt⟩ := jsFindIndex_of_some hby
    rw [hY]
    rw [if_neg (show ¬ ((bx : Int) = -1 ∨ (byIdx : Int) = -1) by
      push_neg
      omega)]
    have hrc : jsGet? (rotateToIndex songCategories (bx : Int) cursor.x)
        cursor.x = some c := by
      unfold jsGet?
      rw [if_pos hcx0]
      have htarget := rotateToIndex_get?_at_target songCategories bx
        cursor.x hbxlt
      rw [show cursor.x % (songCategories.length : Int) = cursor.x from
        Int.emod_eq_of_lt hcx0 (by omega)] at htarget
      rw [htarget]
      exact hcat
    rw [hrc]
    dsimp only
    rw [if_pos (show 0 < c.items.length by omega)]
    have htY : ((cursor.y.tmod (c.items.length : Int)) +
        (c.items.length : Int)).tmod (c.items.length : Int) = cursor.y := by
      rw [tmod_wrap _ (by omega)]
      exact Int.emod_eq_of_lt hcy0 (by omega)
    rw [htY]
    refine ⟨_, rfl, ?_, htitle, hsinger⟩
    unfold itemAt
    have hsetget : ∀ newCat : Category,
        jsGet? ((rotateToIndex songCategories (bx : Int)
          cursor.x).set cursor.x.toNat newCat) cursor.x = some newCat := by
      intro newCat
      unfold jsGet?
      rw [if_pos hcx0]
      rw [List.get?_set_eq]
      obtain ⟨-, hget⟩ := jsGet?_eq_some_iff.mp hrc
      rw [hget]
      rfl
    rw [hsetget, Option.some_bind]
    unfold jsGet?
    rw [if_pos hcy0]
    have hitem := rotateToIndex_get?_at_target c.items byIdx cursor.y hbylt
    rw [show cursor.y % (c.items.length : Int) = cursor.y from
      Int.emod_eq_of_lt hcy0 (by omega)] at hitem
    dsimp only
    rw [hitem]
    exact hid

/-- C1 counterexample, on the specification's own §8 scenario: selection
perf(A, singer2) at cursor `(0,1)`, pivot from song-centric to
singer-centric.  The matched singer2 category has only 1 item, so the
performance lands at row `1 mod 1 = 0`, and the cursor coordinates `(0,1)`
hold NO item after the pivot — the claimed preservation at the cursor's
coordinates fails.  A second conjunct shows the bounds failure on the
horizontal axis makes the code throw outright. -/
theorem C1_counterexample :
    itemAt songCats 0 1 = some (.song perfA2) ∧
    handlePivot (some (.song perfA2)) .songs songCats singerCats songCats
        ⟨0, 1⟩ = .ok ⟨.singers, [catSinger2, catSinger1], ⟨0, 1⟩⟩ ∧
    itemAt [catSinger2, catSinger1] 0 1 = none ∧
    handlePivot (some (.song perfA1)) .songs songCats [catSinger1] songCats
        ⟨1, 0⟩ = .error "TypeError: cannot read properties of undefined" := by
  exact ⟨rfl, rfl, rfl, rfl⟩

/-- Witness for C1: pivoting perf(A, singer1) from cursor `(0,0)` into the
singer-centric grouping keeps that very performance at `(0,0)`. -/
theorem C1_witness :
    ∃ finalCategories,
      handlePivot (some (.song perfA1)) .songs songCats singerCats songCats
          ⟨0, 0⟩ = .ok ⟨flipMode .songs, finalCategories, ⟨0, 0⟩⟩ ∧
      itemAt finalCategories 0 0 = some (.song perfA1) ∧
      perfA1.title = perfA1.title ∧ perfA1.singer_id = perfA1.singer_id :=
  C1_pivot_preserves_selection .songs songCats singerCats songCats ⟨0, 0⟩
    perfA1 0 catSinger1 0 perfA1 (by decide) (by decide) (by decide)
    (by decide) rfl rfl (by decide) (by decide) (by decide) (by decide)

lemma jsSetFrom_aux {α : Type _} [DecidableEq α] (l : List α)
    (acc : List α) (hacc : acc.Nodup) :
    (l.foldl (fun acc t => if t ∈ acc then acc else acc ++ [t]) acc).Nodup ∧
    (∀ x, x ∈ (l.foldl (fun acc t => if t ∈ acc then acc else acc ++ [t])
      acc) ↔ x ∈ acc ∨ x ∈ l) := by
  induction l generalizing acc with
  | nil =>
    refine ⟨hacc, fun x => by simp⟩
  | cons a t ih =>
    simp only [List.foldl_cons]
    by_cases ha : a ∈ acc
    · rw [if_pos ha]
      obtain ⟨h1, h2⟩ := ih acc hacc
      refine ⟨h1, fun x => ?_⟩
      rw [h2 x]
      constructor
      · rintro (hx | hx)
        · exact Or.inl hx
        · exact Or.inr (List.mem_cons_of_mem a hx)
      · rintro (hx | hx)
        · exact Or.inl hx
        · rcases List.mem_cons.mp hx with rfl | hx
          · exact Or.inl ha
          · exact Or.inr hx
    · rw [if_neg ha]
      have hacc' : (acc ++ [a]).Nodup := by
        rw [List.nodup_append]
        exact ⟨hacc, List.nodup_singleton a,
          by simpa [List.Disjoint] using fun x hx (hxa : x = a) =>
            ha (hxa ▸ hx)⟩
      obtain ⟨h1, h2⟩ := ih (acc ++ [a]) hacc'
      refine ⟨h1, fun x => ?_⟩
      rw [h2 x]
      simp only [List.mem_append, List.mem_singleton, List.mem_cons]
      tauto

lemma jsSetFrom_nodup {α : Type _} [DecidableEq α] (l : List α) :
    (jsSetFrom l).Nodup :=
  (jsSetFrom_aux l [] List.nodup_nil).1

lemma mem_jsSetFrom {α : Type _} [DecidableEq α] {l : List α} {x : α} :
    x ∈ jsSetFrom l ↔ x ∈ l := by
  rw [jsSetFrom, (jsSetFrom_aux l [] List.nodup_nil).2 x]
  simp

lemma string_append_left_injective (pre : String) :
    Function.Injective (fun s => pre ++ s) := by
  intro a b h
  have h2 := congrArg String.data h
  simp only [String.data_append] at h2
  exact String.ext (List.append_cancel_left h2)

lemma songCategoriesOf_get?_iff {songs : List Song} {sl : List Singer}
    {i : Nat} {c : Category} :
    (songCategoriesOf songs sl).get? i = some c ↔
    ∃ t, (jsSetFrom (songs.map Song.title)).get? i = some t ∧
      c = { id := "cat_song_" ++ t, title := t,
            items := (songs.filter (fun s => s.title == t)).map
              (fun cover => Item.song (enrichWithSinger sl cover)),
            type := "songs" } := by
  unfold songCategoriesOf
  rw [List.get?_map]
  cases h : (jsSetFrom (songs.map Song.title)).get? i with
  | none => simp
  | some t =>
    simp only [Option.map_some', Option.some.injEq]
    constructor
    · intro hc
      exact ⟨t, rfl, hc.symm⟩
    · rintro ⟨t', ht', rfl⟩
      rw [ht']

lemma singerCategoriesOf_get?_iff {songs : List Song} {sl : List Singer}
    {i : Nat} {c : Category} :
    (singerCategoriesOf songs sl).get? i = some c ↔
    ∃ sg, sl.get? i = some sg ∧
      c = { id := "cat_singer_" ++ sg.id, title := sg.name,
            avatar_url := some sg.avatar_url,
            items := (songs.filter (fun s => s.singer_id == sg.id)).map
              (fun s => Item.song { s with
                singer_name := some sg.name,
                singer_avatar := some sg.avatar_url }),
            type := "songs" } := by
  unfold singerCategoriesOf
  rw [List.get?_map]
  cases h : sl.get? i with
  | none => simp
  | some sg =>
    simp only [Option.map_some', Option.some.injEq]
    constructor
    · intro hc
      exact ⟨sg, rfl, hc.symm⟩
    · rintro ⟨sg', hsg', rfl⟩
      rw [hsg']

lemma appearsIn_song_cat {songs : List Song} {sl : List Singer} {t : String}
    {p : Song} (hp : p ∈ songs) (ht : t = p.title) :
    appearsIn p { id := "cat_song_" ++ t, title := t,
                  items := (songs.filter (fun s => s.title == t)).map
                    (fun cover => Item.song (enrichWithSinger sl cover)),
                  type := "songs" } := by
  refine ⟨enrichWithSinger sl p, ?_, rfl, rfl, rfl⟩
  exact List.mem_map.mpr ⟨p, List.mem_filter.mpr ⟨hp, by
    rw [ht]
    exact beq_self_eq_true p.title⟩, rfl⟩

lemma appearsIn_song_cat_title {songs : List Song} {sl : List Singer}
    {t : String} {p : Song}
    (h : appearsIn p { id := "cat_song_" ++ t, title := t,
                       items := (songs.filter (fun s => s.title == t)).map
                         (fun cover => Item.song (enrichWithSinger sl cover)),
                       type := "songs" }) : t = p.title := by
  obtain ⟨q, hq, _, htitle, _⟩ := h
  obtain ⟨q0, hq0, heq⟩ := List.mem_map.mp hq
  have hq0t : q0.title = t := by
    have := (List.mem_filter.mp hq0).2
    exact eq_of_beq this
  have hqq0 : q = enrichWithSinger sl q0 := (Item.song.inj heq).symm
  have : q.title = q0.title := by
    rw [hqq0]
    rfl
  rw [this, hq0t] at htitle
  exact htitle.symm ▸ rfl

lemma appearsIn_singer_cat {songs : List Song} {sg : Singer} {p : Song}
    (hp : p ∈ songs) (hsg : sg.id = p.singer_id) :
    appearsIn p { id := "cat_singer_" ++ sg.id, title := sg.name,
                  avatar_url := some sg.avatar_url,
                  items := (songs.filter (fun s => s.singer_id == sg.id)).map
                    (fun s => Item.song { s with
                      singer_name := some sg.name,
                      singer_avatar := some sg.avatar_url }),
                  type := "songs" } := by
  refine ⟨{ p with singer_name := some sg.name
                   singer_avatar := some sg.avatar_url }, ?_, rfl, rfl, rfl⟩
  exact List.mem_map.mpr ⟨p, List.mem_filter.mpr ⟨hp, by
    rw [hsg]
    exact beq_self_eq_true p.singer_id⟩, rfl⟩

lemma appearsIn_singer_cat_id {songs : List Song} {sg : Singer} {p : Song}
    (h : appearsIn p { id := "cat_singer_" ++ sg.id, title := sg.name,
                       avatar_url := some sg.avatar_url,
                       items :=
                         (songs.filter (fun s => s.singer_id == sg.id)).map
                           (fun s => Item.song { s with
                             singer_name := some sg.name,
                             singer_avatar := some sg.avatar_url }),
                       type := "songs" }) : sg.id = p.singer_id := by
  obtain ⟨q, hq, _, _, hsinger⟩ := h
  obtain ⟨q0, hq0, heq⟩ := List.mem_map.mp hq
  have hq0s : q0.singer_id = sg.id := by
    have := (List.mem_filter.mp hq0).2
    exact eq_of_beq this
  have hqq0 : q = { q0 with singer_name := some sg.name
                            singer_avatar := some sg.avatar_url } :=
    (Item.song.inj heq).symm
  have : q.singer_id = q0.singer_id := by
    rw [hqq0]
  rw [this, hq0s] at hsinger
  exact hsinger

/-- C9 counterexample: with input `[dupSongX1, dupSongX2]` (two performances
sharing the same (work title, performer identity) pair), the work-centric
grouping puts both into the single "Song X" category, so that category
holds two entries with the same identity pair — the claim's within-category
uniqueness fails for this input list. -/
theorem C9_counterexample :
    (songCategoriesOf [dupSongX1, dupSongX2] [singerX]).length = 1 ∧
    itemAt (songCategoriesOf [dupSongX1, dupSongX2] [singerX]) 0 0 =
      some (.song (enrichWithSinger [singerX] dupSongX1)) ∧
    itemAt (songCategoriesOf [dupSongX1, dupSongX2] [singerX]) 0 1 =
      some (.song (enrichWithSinger [singerX] dupSongX2)) ∧
    sameIdentityB (.song (enrichWithSinger [singerX] dupSongX1))
      (.song (enrichWithSinger [singerX] dupSongX2)) = true := by
  exact ⟨rfl, rfl, rfl, rfl⟩

/-- C9 (amended): provided no two input performances share the same
(work title, performer identity) pair, the singer list has pairwise-distinct
ids, and every performance's performer occurs in the singer list, the two
groupings are partitions: category keys are pairwise distinct, every input
performance appears in exactly one category of each grouping, and no
category holds two entries with the same identity pair. -/
theorem C9_grouping_partition (songs : List Song) (singersList : List Singer)
    (hdistinct : List.Pairwise
      (fun a b => ¬ (a.title = b.title ∧ a.singer_id = b.singer_id)) songs)
    (hids : (singersList.map Singer.id).Nodup)
    (hcover : ∀ p ∈ songs, ∃ sg ∈ singersList, sg.id = p.singer_id) :
    ((songCategoriesOf songs singersList).map Category.title).Nodup ∧
    ((singerCategoriesOf songs singersList).map Category.id).Nodup ∧
    (∀ p ∈ songs,
      (∃ i c, (songCategoriesOf songs singersList).get? i = some c ∧
        appearsIn p c) ∧
      (∀ i j ci cj,
        (songCategoriesOf songs singersList).get? i = some ci →
        (songCategoriesOf songs singersList).get? j = some cj →
        appearsIn p ci → appearsIn p cj → i = j)) ∧
    (∀ p ∈ songs,
      (∃ i c, (singerCategoriesOf songs singersList).get? i = some c ∧
        appearsIn p c) ∧
      (∀ i j ci cj,
        (singerCategoriesOf songs singersList).get? i = some ci →
        (singerCategoriesOf songs singersList).get? j = some cj →
        appearsIn p ci → appearsIn p cj → i = j)) ∧
    (∀ c ∈ songCategoriesOf songs singersList,
      List.Pairwise (fun a b => sameIdentityB a b = false) c.items) ∧
    (∀ c ∈ singerCategoriesOf songs singersList,
      List.Pairwise (fun a b => sameIdentityB a b = false) c.items) := by
  refine ⟨?_, ?_, ?_, ?_, ?_, ?_⟩
  · -- song-grouping keys (titles) are pairwise distinct
    unfold songCategoriesOf
    rw [List.map_map]
    show (List.map (fun t => t)
      (jsSetFrom (songs.map Song.title))).Nodup
    rw [List.map_id']
    exact jsSetFrom_nodup _
  · -- singer-grouping keys (ids) are pairwise distinct
    unfold singerCategoriesOf
    rw [List.map_map]
    show (List.map ((fun s => "cat_singer_" ++ s) ∘ Singer.id)
      singersList).Nodup
    rw [← List.map_map]
    exact List.Nodup.map (string_append_left_injective _) hids
  · -- every performance appears in exactly one song category
    intro p hp
    constructor
    · have ht : p.title ∈ jsSetFrom (songs.map Song.title) :=
        mem_jsSetFrom.mpr (List.mem_map_of_mem Song.title hp)
      obtain ⟨i, hi⟩ := List.get?_of_mem ht
      exact ⟨i, _, songCategoriesOf_get?_iff.mpr ⟨p.title, hi, rfl⟩,
        appearsIn_song_cat hp rfl⟩
    · intro i j ci cj hci hcj hai haj
      obtain ⟨ti, hti, rfl⟩ := songCategoriesOf_get?_iff.mp hci
      obtain ⟨tj, htj, rfl⟩ := songCategoriesOf_get?_iff.mp hcj
      rw [appearsIn_song_cat_title hai] at hti
      rw [appearsIn_song_cat_title haj] at htj
      obtain ⟨hlt, -⟩ := List.get?_eq_some.mp hti
      exact List.get?_inj hlt (jsSetFrom_nodup _) (hti.trans htj.symm)
  · -- every performance appears in exactly one singer category
    intro p hp
    constructor
    · obtain ⟨sg, hsgmem, hsg⟩ := hcover p hp
      obtain ⟨i, hi⟩ := List.get?_of_mem hsgmem
      exact ⟨i, _, singerCategoriesOf_get?_iff.mpr ⟨sg, hi, rfl⟩,
        appearsIn_singer_cat hp hsg⟩
    · intro i j ci cj hci hcj hai haj
      obtain ⟨sgi, hsgi, rfl⟩ := singerCategoriesOf_get?_iff.mp hci
      obtain ⟨sgj, hsgj, rfl⟩ := singerCategoriesOf_get?_iff.mp hcj
      have h1 : sgi.id = p.singer_id := appearsIn_singer_cat_id hai
      have h2 : sgj.id = p.singer_id := appearsIn_singer_cat_id haj
      have hmi : (singersList.map Singer.id).get? i = some p.singer_id := by
        rw [List.get?_map, hsgi, Option.map_some', h1]
      have hmj : (singersList.map Singer.id).get? j = some p.singer_id := by
        rw [List.get?_map, hsgj, Option.map_some', h2]
      obtain ⟨hlt, -⟩ := List.get?_eq_some.mp hmi
      exact List.get?_inj hlt hids (hmi.trans hmj.symm)
  · -- within-category identity uniqueness, song grouping
    intro c hc
    unfold songCategoriesOf at hc
    obtain ⟨t, -, rfl⟩ := List.mem_map.mp hc
    refine List.Pairwise.map _ (fun a b hR => ?_)
      (List.Pairwise.filter _ hdistinct)
    show (a.title == b.title && a.singer_id == b.singer_id) = false
    simp only [Bool.and_eq_false_iff, beq_eq_false_iff_ne, ne_eq]
    tauto
  · -- within-category identity uniqueness, singer grouping
    intro c hc
    unfold singerCategoriesOf at hc
    obtain ⟨sg, -, rfl⟩ := List.mem_map.mp hc
    refine List.Pairwise.map _ (fun a b hR => ?_)
      (List.Pairwise.filter _ hdistinct)
    show (a.title == b.title && a.singer_id == b.singer_id) = false
    simp only [Bool.and_eq_false_iff, beq_eq_false_iff_ne, ne_eq]
    tauto

/-- Witness for C9 on the scenario registry (three covers, two singers,
pairwise-distinct identity pairs). -/
theorem C9_witness :
    ((songCategoriesOf [perfA1, perfA2, perfB1]
      [singer1, singer2]).map Category.title).Nodup ∧
    ((singerCategoriesOf [perfA1, perfA2, perfB1]
      [singer1, singer2]).map Category.id).Nodup ∧
    (∃ i c, (songCategoriesOf [perfA1, perfA2, perfB1]
      [singer1, singer2]).get? i = some c ∧ appearsIn perfA1 c) := by
  have h := C9_grouping_partition [perfA1, perfA2, perfB1] [singer1, singer2]
    (by decide) (by decide) (by decide)
  exact ⟨h.1, h.2.1, (h.2.2.1 perfA1 (by decide)).1⟩
